import Mathlib

/-!
Verification development for the bgpkit BGP-4 speaker library.

The definitions below are a shallow embedding of the Python sources
`bgpkit/message.py`, `bgpkit/rt.py`, `bgpkit/session.py` and
`bgpkit/server.py`.  Bytes are modelled as `List Nat` (each entry a byte
value), Python integers as `Nat`, fallible Python code as `Except PyErr`,
and Python object mutation as explicit state passing.  Each definition
carries a comment naming the source construct it embeds.
-/

/-- Python exception outcomes that the embedded code can raise. -/
inductive PyErr where
  | keyError
  | indexError
  | attributeError
  | overflowError
  | valueError
  | nameError
  | notificationError (code subcode : Nat)
deriving DecidableEq, Repr

/-- Python `int.from_bytes(b, byteorder="big")` on a byte list. -/
def intFromBytes (b : List Nat) : Nat :=
  b.foldl (fun acc x => acc * 256 + x) 0

/-- Big-endian digit expansion used by `intToBytes`. -/
def intToBytesGo : Nat → Nat → List Nat
  | 0, _ => []
  | k + 1, n => intToBytesGo k (n / 256) ++ [n % 256]

/-- Python `n.to_bytes(len, byteorder="big")`: raises `OverflowError` when
`n` does not fit into `len` octets. -/
def intToBytes (len n : Nat) : Except PyErr (List Nat) :=
  if n < 256 ^ len then .ok (intToBytesGo len n) else .error .overflowError

/-- Python `bytearray.append(x)`: raises `ValueError` unless `0 ≤ x < 256`. -/
def byteAppend (b : List Nat) (x : Nat) : Except PyErr (List Nat) :=
  if x < 256 then .ok (b ++ [x]) else .error .valueError

/-- Python indexing `b[i]` on bytes: raises `IndexError` when out of range. -/
def pyIndex (b : List Nat) (i : Nat) : Except PyErr Nat :=
  match b.get? i with
  | some x => .ok x
  | none => .error .indexError

/-- `bgpkit.message.PathAttribute`: flags octet, type octet and payload
(`message.py` lines 518-531). -/
structure PathAttribute where
  flags : Nat
  type_ : Nat
  payload : List Nat
deriving DecidableEq, Repr

/-- `PathAttribute.FLAG_EXTENDED_LENGTH = 16`. -/
def FLAG_EXTENDED_LENGTH : Nat := 16

/-- The `extended_length` property getter:
`bool(self.flags & self.FLAG_EXTENDED_LENGTH)`. -/
def extendedLengthFlag (flags : Nat) : Bool :=
  flags &&& FLAG_EXTENDED_LENGTH != 0

/-- The `extended_length` property setter (`message.py` lines 561-563):
`self.flags ^= self.flags & self.FLAG_EXTENDED_LENGTH * (not b)`.
Since `*` binds tighter than `&` in Python this is
`flags ^ (flags & (16 * (not b)))`: with `b = True` the mask is `0` and the
assignment leaves `flags` unchanged; with `b = False` it clears the bit. -/
def setExtendedLength (flags : Nat) (b : Bool) : Nat :=
  flags ^^^ (flags &&& (FLAG_EXTENDED_LENGTH * (if b then 0 else 1)))

/-- `PathAttribute.to_bytes` (`message.py` lines 569-581). -/
def PathAttribute.to_bytes (a : PathAttribute) : Except PyErr (List Nat) := do
  let a := if a.payload.length > 255 then
    { a with flags := setExtendedLength a.flags true } else a
  let b ← byteAppend [] a.flags
  let b ← byteAppend b a.type_
  let lenBytes ←
    if extendedLengthFlag a.flags then intToBytes 2 a.payload.length
    else intToBytes 1 a.payload.length
  .ok (b ++ lenBytes ++ a.payload)

/-- `PathAttribute.from_bytes` (`message.py` lines 595-604): reads the flags
and type octets, then a 2-octet length when the EXTENDED_LENGTH bit of the
decoded flags octet is set, else a 1-octet length. -/
def PathAttribute.from_bytes (b : List Nat) : Except PyErr PathAttribute := do
  let flags ← pyIndex b 0
  let t ← pyIndex b 1
  if extendedLengthFlag flags then
    let dLen := intFromBytes ((b.drop 2).take 2)
    .ok ⟨flags, t, (b.drop 4).take dLen⟩
  else
    let dLen ← pyIndex b 2
    .ok ⟨flags, t, (b.drop 3).take dLen⟩

/-- `bgpkit.message.message_length` (`message.py` lines 1609-1610):
`int.from_bytes(message[16:18], byteorder="big")`. -/
def message_length (message : List Nat) : Nat :=
  intFromBytes ((message.drop 16).take 2)

/-- `bgpkit.message.is_full_message` (`message.py` lines 1605-1606):
`len(message) >= message_length(message) and len(message) >= 18`. -/
def is_full_message (message : List Nat) : Bool :=
  decide (message.length ≥ message_length message) &&
    decide (message.length ≥ 18)

/-! ## The prefix trie of `bgpkit/rt.py` -/

/-- A `netaddr.IPNetwork` value: base address and prefix length.  The
embedding keeps IPv4 networks (32-bit addresses) with the base address
already in normalized (masked) form, which holds for every network the
embedded operations construct. -/
structure IPNet where
  addr : Nat
  plen : Nat
deriving DecidableEq, Repr

/-- The netmask of a prefix length, over 32-bit addresses. -/
def netmask (plen : Nat) : Nat := 2 ^ 32 - 2 ^ (32 - plen)

/-- `IPNetwork.first`: the lowest address of the network. -/
def IPNet.first (n : IPNet) : Nat := n.addr &&& netmask n.plen

/-- `IPNetwork.last`: the highest address of the network. -/
def IPNet.last (n : IPNet) : Nat := n.first + (2 ^ (32 - n.plen) - 1)

/-- netaddr's `inner in outer` on networks:
`inner.first >= outer.first and inner.last <= outer.last`. -/
def netContains (outer inner : IPNet) : Bool :=
  decide (outer.first ≤ inner.first) && decide (inner.last ≤ outer.last)

mutual
/-- `rt._Node` / `rt._DataNode`: a trie node with network, children and an
optional data value (`data = some v` models a `_DataNode` carrying `v`).
Children are kept as a list standing in for the Python `set` (iteration
order fixed by construction; the tree invariants make at most one child
relevant per descent step). -/
inductive Node (α : Type) where
  | mk (net : IPNet) (children : Children α) (data : Option α)
deriving DecidableEq

/-- The children collection of a trie node. -/
inductive Children (α : Type) where
  | nil
  | cons (c : Node α) (rest : Children α)
deriving DecidableEq
end

/-- The network of a node. -/
def Node.net {α : Type} : Node α → IPNet
  | .mk n _ _ => n

/-- The data of a node (`none` for a plain `_Node`). -/
def Node.data {α : Type} : Node α → Option α
  | .mk _ _ d => d

/-- The children of a node. -/
def Node.children {α : Type} : Node α → Children α
  | .mk _ c _ => c

/-- Filter on a children collection. -/
def Children.filter {α : Type} (p : Node α → Bool) : Children α → Children α
  | .nil => .nil
  | .cons c rest =>
    if p c then .cons c (Children.filter p rest) else Children.filter p rest

/-- Number of children (`len(node.children)`). -/
def Children.length {α : Type} : Children α → Nat
  | .nil => 0
  | .cons _ rest => 1 + Children.length rest

mutual
/-- Whether some node of the subtree has the given network. -/
def Node.hasNet {α : Type} : Node α → IPNet → Bool
  | .mk n cs _, net => n = net || Children.hasNet cs net

/-- Whether some node of a children collection's subtrees has the network. -/
def Children.hasNet {α : Type} : Children α → IPNet → Bool
  | .nil, _ => false
  | .cons c rest, net => Node.hasNet c net || Children.hasNet rest net
end

mutual
/-- `_Node.lookup` (`rt.py` lines 23-39): follow `lookup_chain` and return
its last node.  Starting at `cur`, the chain stops at a node whose network
equals the key, or at a node none of whose children's networks contain the
key; otherwise it descends into the first child whose network contains the
key. -/
def Node.lookup {α : Type} : Node α → IPNet → Node α
  | .mk cnet cs d, net =>
    if cnet = net then .mk cnet cs d
    else Children.lookupStep (.mk cnet cs d) net cs

/-- One step of the `lookup_chain` descent: scan the children for one whose
network contains the key; descend there, else stop at `fallback`. -/
def Children.lookupStep {α : Type} (fallback : Node α) (net : IPNet) :
    Children α → Node α
  | .nil => fallback
  | .cons c rest =>
    if netContains c.net net then Node.lookup c net
    else Children.lookupStep fallback net rest
end

/-- `RoutingTable.splits` (`rt.py` line 68). -/
def routingTableSplits : List Nat := [8, 16, 24, 32, 40, 48, 56, 64, 96, 104, 112, 120]

/-- `RoutingTable4.splits` (`rt.py` line 263). -/
def routingTable4Splits : List Nat := [8, 16, 24]

/-- `RoutingTable.split_min1 = 64`. -/
def split_min1 : Nat := 64

/-- The split length chosen by `_insert_node` (`rt.py` lines 119-129):
`min(s for s in self.splits if s > node.net.prefixlen and net.prefixlen >= s)`,
`None` when no split length qualifies. -/
def minSplit (splits : List Nat) (nodePlen netPlen : Nat) : Option Nat :=
  (splits.filter (fun s => decide (nodePlen < s) && decide (s ≤ netPlen))).min?

/-- The rearrangement of the best-matching node's children performed by
`_insert_node` when the best match is not exact (`rt.py` lines 119-175).
`curNet` is the best-matching node's network, `cs` its children, `net` the
network being inserted and `v` the inserted node's data.  Returns the new
children of the best-matching node (the children of `rep_node`). -/
def attachChildren {α : Type} (splits : List Nat) (curNet : IPNet)
    (cs : Children α) (net : IPNet) (v : Option α) : Children α :=
  let ins : Node α := .mk net (cs.filter (fun c => netContains net c.net)) v
  match minSplit splits curNet.plen net.plen with
  | none => .cons ins (cs.filter (fun c => !netContains net c.net))
  | some s =>
    if cs.length < split_min1 || s = net.plen then
      .cons ins (cs.filter (fun c => !netContains net c.net))
    else
      let splNet : IPNet := ⟨net.addr &&& netmask s, s⟩
      let spl : Node α := .mk splNet
        (.cons ins (cs.filter
          (fun c => !netContains net c.net && netContains splNet c.net))) none
      .cons spl (cs.filter
        (fun c => !netContains net c.net && !netContains splNet c.net))

mutual
/-- The descent of `_insert_node` below the root (`rt.py` lines 104-175),
mirrored as a pure rewrite of the tree.  At the current node, the first
child whose network contains `net` is inspected: an exact match is replaced
by the inserted node (which inherits its children), otherwise the descent
recurses; when no child contains `net` the current node is the best match
and its children are rearranged by `attachChildren`. -/
def Node.insert {α : Type} (splits : List Nat) :
    Node α → IPNet → Option α → Node α
  | .mk cnet cs d, net, v =>
    match Children.insertStep splits net v cs with
    | some cs' => .mk cnet cs' d
    | none => .mk cnet (attachChildren splits cnet cs net v) d

/-- Helper of `Node.insert` on the children list: `some cs'` when a child
containing `net` was found and rewritten, `none` when no child contains
`net`. -/
def Children.insertStep {α : Type} (splits : List Nat) (net : IPNet)
    (v : Option α) : Children α → Option (Children α)
  | .nil => none
  | .cons c rest =>
    if netContains c.net net then
      some (.cons
        (if c.net = net then .mk net c.children v
         else Node.insert splits c net v) rest)
    else
      (Children.insertStep splits net v rest).map (fun r => .cons c r)
end

mutual
/-- `RoutingTable.remove` below the root (`rt.py` lines 204-218): descend
the `lookup_chain`; when it ends at a data node whose network equals the
key, replace that node by a plain node with the same children; otherwise
raise `KeyError`. -/
def Node.removeNet {α : Type} : Node α → IPNet → Except PyErr (Node α)
  | .mk cnet cs d, net =>
    if cnet = net then
      match d with
      | some _ => .ok (.mk net cs none)
      | none => .error .keyError
    else
      (Children.removeStep net cs).map (fun cs' => .mk cnet cs' d)

/-- Helper of `Node.removeNet` on the children list. -/
def Children.removeStep {α : Type} (net : IPNet) :
    Children α → Except PyErr (Children α)
  | .nil => .error .keyError
  | .cons c rest =>
    if netContains c.net net then
      (Node.removeNet c net).map (fun c' => .cons c' rest)
    else
      (Children.removeStep net rest).map (fun r => .cons c r)
end

/-- `rt.RoutingTable`: the root node plus the class's `splits` tuning list.
The embedding is for tables whose family coercion (`_coerce_net`) is the
identity, which holds for `RoutingTable4` fed IPv4 networks. -/
structure RoutingTable (α : Type) where
  splits : List Nat
  root : Node α
deriving DecidableEq

/-- `RoutingTable.__setitem__` (`rt.py` lines 223-225): insert a data node.
`_insert_node` replaces the root when the key equals the root's network
(`rt.py` lines 100-103); otherwise the descent rewrite applies. -/
def RoutingTable.setItem {α : Type} (t : RoutingTable α) (net : IPNet)
    (v : α) : RoutingTable α :=
  if net = t.root.net then
    ⟨t.splits, .mk net t.root.children (some v)⟩
  else
    ⟨t.splits, t.root.insert t.splits net (some v)⟩

/-- `RoutingTable.lookup` (`rt.py` lines 177-184): take the last node of the
root's `lookup_chain`; return its `(net, data)` when it is a data node (and,
for `exact`, its network equals the key), else raise `KeyError`. -/
def RoutingTable.lookup {α : Type} (t : RoutingTable α) (net : IPNet)
    (exact : Bool) : Except PyErr (IPNet × α) :=
  let nd := t.root.lookup net
  match nd.data with
  | some v => if !exact || nd.net = net then .ok (nd.net, v) else .error .keyError
  | none => .error .keyError

/-- `RoutingTable.remove` (`rt.py` lines 204-218). -/
def RoutingTable.remove {α : Type} (t : RoutingTable α) (net : IPNet) :
    Except PyErr (RoutingTable α) :=
  (t.root.removeNet net).map (fun r => ⟨t.splits, r⟩)

/-- A fresh `RoutingTable4` (`rt.py` lines 260-268): root `0.0.0.0/0`,
splits `[8, 16, 24]`. -/
def RoutingTable4.empty {α : Type} : RoutingTable α :=
  ⟨routingTable4Splits, .mk ⟨0, 0⟩ .nil none⟩

/-- A fresh generic `RoutingTable()` (`rt.py` lines 84-87). -/
def RoutingTable.emptyDefault {α : Type} : RoutingTable α :=
  ⟨routingTableSplits, .mk ⟨0, 0⟩ .nil none⟩

/-! ## Sessions (`bgpkit/session.py`) -/

/-- `bgpkit.message.Capability` objects as they matter to session logic:
multiprotocol (AFI, SAFI), four-octet ASN, ADD-PATH with its
(AFI, SAFI, send_receive) triples, and any other capability kept opaque. -/
inductive Capability where
  | multiprotocol (afi safi : Nat)
  | fourOctetASN (asn : Nat)
  | addPath (protos : List (Nat × Nat × Nat))
  | routeRefreshCap
  | other (type_ : Nat) (payload : List Nat)
deriving DecidableEq, Repr

/-- The `(capability.afi, capability.safi)` tuples of the
`MultiprotocolCapability` entries of a capability collection. -/
def multiprotocolTuples (caps : List Capability) : List (Nat × Nat) :=
  caps.filterMap (fun c =>
    match c with
    | .multiprotocol afi safi => some (afi, safi)
    | _ => none)

/-- The capability sets of a `session.Session`. -/
structure Session where
  local_capabilities : List Capability
  peer_capabilities : List Capability
deriving DecidableEq, Repr

/-- `Session.local_protocols` (`session.py` lines 248-256): the
multiprotocol tuples of `self.local_capabilities`. -/
def Session.local_protocols (s : Session) : List (Nat × Nat) :=
  multiprotocolTuples s.local_capabilities

/-- `Session.peer_protocols` (`session.py` lines 258-267): the code
iterates over `self.local_capabilities` in this property as well. -/
def Session.peer_protocols (s : Session) : List (Nat × Nat) :=
  multiprotocolTuples s.local_capabilities

/-- `Session.common_protocols` (`session.py` lines 269-271):
`self.local_protocols & self.peer_protocols` (set intersection, here as a
membership filter). -/
def Session.common_protocols (s : Session) : List (Nat × Nat) :=
  s.local_protocols.filter (fun p => p ∈ s.peer_protocols)

/-! ## Routes, RIBs and UPDATE consumption (`bgpkit/server.py`) -/

/-- `bgpkit.message.IPNLRI`: an NLRI object wrapping an IP network.  The
object carries no `ipv4()`/`ipv6()` methods. -/
structure IPNLRI where
  net : IPNet
deriving DecidableEq, Repr

/-- Path attributes as discriminated by `Route.from_update`:
`MultiprotocolReachableNLRI`, `MultiprotocolUnreachableNLRI`, and every
other attribute kept as flags/type/payload. -/
inductive RouteAttr where
  | mpReach (afi safi : Nat) (next_hop : List Nat) (nlri : List IPNLRI)
  | mpUnreach (afi safi : Nat) (nlri : List IPNLRI)
  | plain (flags type_ : Nat) (payload : List Nat)
deriving DecidableEq, Repr

/-- `server.RouteAction`. -/
inductive RouteAction where
  | announce
  | withdraw
deriving DecidableEq, Repr

/-- `server.Route` (`server.py` lines 51-65): AFI, SAFI, NLRI, attribute
set (kept as a list standing in for the frozenset) and optional source
router id `(asn, router_id)`. -/
structure Route where
  afi : Nat
  safi : Nat
  nlri : IPNLRI
  attributes : List RouteAttr
  source_router : Option (Nat × Nat)
deriving DecidableEq, Repr

/-- A decoded `message.UpdateMessage` as consumed by `Route.from_update`:
withdrawn NLRIs, path attributes and announced NLRIs. -/
structure UpdateMessage where
  withdrawn : List IPNLRI
  path_attributes : List RouteAttr
  nlri : List IPNLRI
deriving DecidableEq, Repr

/-- `Route.from_update` (`server.py` lines 152-173).  The path attributes
are partitioned into MP_REACH, MP_UNREACH and shared attributes; ANNOUNCEs
are yielded for top-level NLRIs (as IPv4 unicast) and for each MP_REACH
NLRI, WITHDRAWs for top-level withdrawn NLRIs and for each MP_UNREACH NLRI.
In the MP_UNREACH loop the source reads `mpreach.afi, mpreach.safi` — the
loop variable of the previous loop — so those WITHDRAWs carry the last
MP_REACH's AFI/SAFI, and when no MP_REACH attribute exists the name is
unbound and Python raises `NameError` at the first MP_UNREACH NLRI. -/
def Route.from_update (u : UpdateMessage) :
    Except PyErr (List (RouteAction × Route)) := do
  let mpreachs := u.path_attributes.filterMap (fun a =>
    match a with
    | .mpReach afi safi nh nl => some (afi, safi, nh, nl)
    | _ => none)
  let mpunreachs := u.path_attributes.filterMap (fun a =>
    match a with
    | .mpUnreach afi safi nl => some (afi, safi, nl)
    | _ => none)
  let attrs := u.path_attributes.filter (fun a =>
    match a with
    | .plain _ _ _ => true
    | _ => false)
  let announces := u.nlri.map (fun n =>
    (RouteAction.announce, Route.mk 1 1 n attrs none))
  let withdraws := u.withdrawn.map (fun n =>
    (RouteAction.withdraw, Route.mk 1 1 n attrs none))
  let mpAnnounces := mpreachs.flatMap (fun m =>
    m.2.2.2.map (fun n =>
      (RouteAction.announce, Route.mk m.1 m.2.1 n
        (attrs ++ [RouteAttr.mpReach m.1 m.2.1 m.2.2.1 m.2.2.2]) none)))
  let mpWithdraws ← mpunreachs.foldlM (fun acc m =>
    m.2.2.foldlM (fun acc2 n =>
      match mpreachs.getLast? with
      | none => .error .nameError
      | some lr => .ok (acc2 ++
          [(RouteAction.withdraw, Route.mk lr.1 lr.2.1 n
            (attrs ++ [RouteAttr.mpUnreach m.1 m.2.1 m.2.2]) none)])) acc) []
  .ok (announces ++ withdraws ++ mpAnnounces ++ mpWithdraws)

/-- Association-list read standing in for a Python dict lookup. -/
def alistGet {γ : Type} (l : List ((Nat × Nat) × γ)) (k : Nat × Nat) :
    Option γ :=
  (l.find? (fun e => e.1 = k)).map (fun e => e.2)

/-- Association-list write standing in for a Python dict store
(replace-on-conflict, insertion order kept). -/
def alistSet {γ : Type} (l : List ((Nat × Nat) × γ)) (k : Nat × Nat)
    (v : γ) : List ((Nat × Nat) × γ) :=
  if l.any (fun e => e.1 = k) then
    l.map (fun e => if e.1 = k then (k, v) else e)
  else l ++ [(k, v)]

/-- `server.RIB` (`server.py` lines 594-694): the registered protocol
tuples and the per-protocol routing tables. -/
structure RIB (β : Type) where
  protos : List (Nat × Nat)
  rts : List ((Nat × Nat) × RoutingTable β)

/-- Python `x in self._rts` with `x` an `IPNLRI` object: membership among
the dict keys, which are `(AFI, SAFI)` tuples; a tuple never compares equal
to an `IPNLRI` object, so the test is false. -/
def protoKeyEqNLRI (_k : Nat × Nat) (_n : IPNLRI) : Bool := false

/-- `RIB.__contains__` (`server.py` lines 677-680):
`if (key[0], key[1]) not in self._rts: return False` followed by
`return key[2] in self._rts` — the second test checks the NLRI against the
keys of `_rts` itself. -/
def RIB.contains {β : Type} (r : RIB β) (afi safi : Nat) (nlri : IPNLRI) :
    Bool :=
  if (alistGet r.rts (afi, safi)).isNone then false
  else r.rts.any (fun e => protoKeyEqNLRI e.1 nlri)

/-- `RoutingTable._coerce_net` applied to an `IPNLRI` key (`rt.py` lines
186-189): the code calls `net.ipv4()` or `net.ipv6()`, attributes an
`IPNLRI` object does not have, so Python raises `AttributeError`. -/
def nlriCoerce (_n : IPNLRI) : Except PyErr IPNet := .error .attributeError

/-- `RIB.__setitem__` (`server.py` lines 666-669):
`self._rts[afi, safi][route] = value`, which enters
`RoutingTable.__setitem__` and first coerces the `IPNLRI` key. -/
def RIB.setItem {β : Type} (r : RIB β) (afi safi : Nat) (nlri : IPNLRI)
    (v : β) : Except PyErr (RIB β) := do
  let rt ← match alistGet r.rts (afi, safi) with
    | some rt => Except.ok rt
    | none => Except.error PyErr.keyError
  let net ← nlriCoerce nlri
  .ok ⟨r.protos, alistSet r.rts (afi, safi) (rt.setItem net v)⟩

/-- `RIB.__getitem__` (`server.py` lines 671-672): exact lookup in the
(afi, safi) routing table, again coercing the `IPNLRI` key first. -/
def RIB.getItem {β : Type} (r : RIB β) (afi safi : Nat) (nlri : IPNLRI) :
    Except PyErr β := do
  let rt ← match alistGet r.rts (afi, safi) with
    | some rt => Except.ok rt
    | none => Except.error PyErr.keyError
  let net ← nlriCoerce nlri
  (rt.lookup net true).map (fun p => p.2)

/-- `RIB.__delitem__` (`server.py` lines 674-675). -/
def RIB.delItem {β : Type} (r : RIB β) (afi safi : Nat) (nlri : IPNLRI) :
    Except PyErr (RIB β) := do
  let rt ← match alistGet r.rts (afi, safi) with
    | some rt => Except.ok rt
    | none => Except.error PyErr.keyError
  let net ← nlriCoerce nlri
  let rt' ← rt.remove net
  .ok ⟨r.protos, alistSet r.rts (afi, safi) rt'⟩

/-- `RIB.add` (`server.py` lines 626-631): reject unregistered protocols
(`ValueError`), then store the route at `(afi, safi, nlri)`.  The
embedding's NLRIs are all `IPNLRI`, so the `isinstance` guard passes. -/
def RIB.add (r : RIB Route) (route : Route) : Except PyErr (RIB Route) :=
  if (route.afi, route.safi) ∈ r.protos then
    r.setItem route.afi route.safi route.nlri route
  else .error .valueError

/-- `RIB.add_set` (`server.py` lines 640-647): when
`(afi, safi, nlri) not in self`, store a fresh empty set; then insert the
route into the set at the key. -/
def RIB.add_set (r : RIB (List Route)) (route : Route) :
    Except PyErr (RIB (List Route)) :=
  if (route.afi, route.safi) ∈ r.protos then do
    let r ← if !(r.contains route.afi route.safi route.nlri) then
        r.setItem route.afi route.safi route.nlri []
      else .ok r
    let s ← r.getItem route.afi route.safi route.nlri
    r.setItem route.afi route.safi route.nlri
      (if route ∈ s then s else s ++ [route])
  else .error .valueError

/-- `RIB.remove` (`server.py` lines 656-659): return unchanged when the
key is not in the RIB, else delete the entry. -/
def RIB.remove (r : RIB Route) (route : Route) : Except PyErr (RIB Route) :=
  if !(r.contains route.afi route.safi route.nlri) then .ok r
  else r.delItem route.afi route.safi route.nlri

/-- `RIB.remove_set` (`server.py` lines 661-664): return unchanged when the
key is not in the RIB, else remove the route from the stored set
(`set.remove` raises `KeyError` when absent). -/
def RIB.remove_set (r : RIB (List Route)) (route : Route) :
    Except PyErr (RIB (List Route)) :=
  if !(r.contains route.afi route.safi route.nlri) then .ok r
  else do
    let s ← r.getItem route.afi route.safi route.nlri
    let s' ← if route ∈ s then Except.ok (s.erase route)
      else Except.error PyErr.keyError
    r.setItem route.afi route.safi route.nlri s'

/-- The state touched by `RoutingSession.on_update` (`server.py` lines
696-763): the session's capability sets (for `common_protocols`), its
`peer_id`, its import filter, its Adj-RIB-In, and the server's Loc-RIB. -/
structure RoutingSession where
  local_capabilities : List Capability
  peer_capabilities : List Capability
  peer_id : Option (Nat × Nat)
  filter_in : Route → Bool
  adj_rib_in : RIB Route
  loc_rib : RIB (List Route)

/-- `RoutingSession.on_update` (`server.py` lines 738-763): collect the
(action, route) pairs from the UPDATE, closing the session with
NOTIFICATION(3, 9) when a route's protocol is not in `common_protocols` and
stamping each route with `peer_id`; then apply ANNOUNCE/WITHDRAW to the
Adj-RIB-In; then merge into the Loc-RIB (`add_set` for filtered ANNOUNCEs,
`remove_set` for WITHDRAWs). -/
def RoutingSession.on_update (s : RoutingSession) (u : UpdateMessage) :
    Except PyErr RoutingSession := do
  let pairs ← Route.from_update u
  let routes ← pairs.mapM (fun ar =>
    if (ar.2.afi, ar.2.safi) ∈
        (Session.mk s.local_capabilities s.peer_capabilities).common_protocols
    then .ok (ar.1, { ar.2 with source_router := s.peer_id })
    else .error (.notificationError 3 9))
  let adj ← routes.foldlM (fun rib ar =>
    match ar.1 with
    | .announce => rib.add ar.2
    | .withdraw => rib.remove ar.2) s.adj_rib_in
  let loc ← routes.foldlM (fun rib ar =>
    match ar.1 with
    | .announce => if s.filter_in ar.2 then rib.add_set ar.2 else .ok rib
    | .withdraw => rib.remove_set ar.2) s.loc_rib
  .ok { s with adj_rib_in := adj, loc_rib := loc }

/-! ## The `MessageDecoder` registries (`bgpkit/message.py` lines 1416-1593)

`MessageDecoder` objects hold five mutable dicts.  To settle frame
conditions the dicts live on an explicit heap: a `MessageDecoder` holds
five heap references, and every registration writes through the reference
of the decoder being mutated. -/

/-- The Python classes that appear as values of the decoder registries. -/
inductive PyClass where
  | openMessageC
  | updateMessageC
  | notificationMessageC
  | keepaliveMessageC
  | routeRefreshMessageC
  | originC
  | asPathC
  | nextHopC
  | multiExitDiscC
  | localPrefC
  | atomicAggregateC
  | aggregatorC
  | communitiesC
  | mpReachC
  | mpUnreachC
  | as4PathC
  | aggregator4C
  | largeCommunitiesC
  | multiprotocolCapC
  | routeRefreshCapC
  | gracefulRestartCapC
  | fourOctetASNCapC
  | addPathCapC
  | capabilityParameterC
  | ipNLRIC
  | addPathIPNLRIC
deriving DecidableEq, Repr

/-- Keys of `path_attribute_types`.  Registering `Aggregator4Attribute`
uses `t.type_`, which at class level is the `type_` property object (the
class defines `type_` as a property), so that registration keys the dict
by that object rather than by an integer. -/
inductive PaKey where
  | num (n : Nat)
  | aggregator4Property
deriving DecidableEq, Repr

/-- A Python dict as an insertion-ordered association list. -/
def dictSet {κ : Type} [DecidableEq κ] (d : List (κ × PyClass)) (k : κ)
    (v : PyClass) : List (κ × PyClass) :=
  if d.any (fun e => e.1 = k) then
    d.map (fun e => if e.1 = k then (k, v) else e)
  else d ++ [(k, v)]

/-- Python `dict.update`: fold `dictSet` over the source dict. -/
def dictUpdate {κ : Type} [DecidableEq κ] (d src : List (κ × PyClass)) :
    List (κ × PyClass) :=
  src.foldl (fun acc e => dictSet acc e.1 e.2) d

/-- A `MessageDecoder` object: heap references to its five registries. -/
structure MessageDecoder where
  message_types : Nat
  path_attribute_types : Nat
  capability_types : Nat
  parameter_types : Nat
  nlri_types : Nat
deriving DecidableEq, Repr

/-- The heap of registry dicts, one store per registry kind. -/
structure DecoderHeap where
  msgs : List (List (Nat × PyClass))
  pas : List (List (PaKey × PyClass))
  caps : List (List (Nat × PyClass))
  pars : List (List (Nat × PyClass))
  nlris : List (List ((Nat × Nat) × PyClass))

/-- `MessageDecoder.__init__(self, _decoder)` (`message.py` lines
1425-1446): allocate five fresh empty dicts, then update each with the
entries of the template decoder's corresponding dict.  (The keyword
registry arguments are empty in the uses modelled here.) -/
def MessageDecoder.init (base : MessageDecoder) (h : DecoderHeap) :
    MessageDecoder × DecoderHeap :=
  (⟨h.msgs.length, h.pas.length, h.caps.length, h.pars.length,
      h.nlris.length⟩,
    ⟨h.msgs ++ [dictUpdate [] (h.msgs.getD base.message_types [])],
      h.pas ++ [dictUpdate [] (h.pas.getD base.path_attribute_types [])],
      h.caps ++ [dictUpdate [] (h.caps.getD base.capability_types [])],
      h.pars ++ [dictUpdate [] (h.pars.getD base.parameter_types [])],
      h.nlris ++ [dictUpdate [] (h.nlris.getD base.nlri_types [])]⟩)

/-- `MessageDecoder.register_path_attribute_type` (`message.py` lines
1540-1541): write `path_attribute_types[t.type_] = t` through the
decoder's heap reference. -/
def registerPathAttributeType (d : MessageDecoder) (h : DecoderHeap)
    (k : PaKey) (c : PyClass) : DecoderHeap :=
  let newDict := dictSet (h.pas.getD d.path_attribute_types []) k c
  { h with pas := h.pas.set d.path_attribute_types newDict }

/-- The write `decoder.nlri_types[afi, safi] = AddPathIPNLRI`
(`message.py` line 1592). -/
def setNLRIType (d : MessageDecoder) (h : DecoderHeap) (k : Nat × Nat)
    (c : PyClass) : DecoderHeap :=
  let newDict := dictSet (h.nlris.getD d.nlri_types []) k c
  { h with nlris := h.nlris.set d.nlri_types newDict }

/-- `IPNLRI.protos` (`message.py` lines 1176-1179): the IP AFI/SAFI pairs. -/
def ipnlriProtos : List (Nat × Nat) := [(1, 1), (2, 1), (1, 2), (2, 2)]

/-- The ADD-PATH loop of `for_capabilities` (`message.py` lines 1586-1592):
install `AddPathIPNLRI` for each advertised `(afi, safi, send_receive)`
with an IP family and the receive bit set. -/
def addPathRegister (d : MessageDecoder) (protos : List (Nat × Nat × Nat))
    (h : DecoderHeap) : DecoderHeap :=
  protos.foldl (fun hh p =>
    if (decide ((p.1, p.2.1) ∈ ipnlriProtos)) && (p.2.2 &&& 1 != 0) then
      setNLRIType d hh (p.1, p.2.1) .addPathIPNLRIC
    else hh) h

/-- One step of the capability loop of `for_capabilities` (`message.py`
lines 1582-1592): `FourOctetASNCapability` registers `AS4PathAttribute`
(class `type_ = 2`) and `Aggregator4Attribute` (class `type_` is the
property object); `AddPathCapability` installs ADD-PATH NLRI decoding. -/
def forCapabilitiesStep (d : MessageDecoder) (hh : DecoderHeap) :
    Capability → DecoderHeap
  | .fourOctetASN _ =>
    registerPathAttributeType d
      (registerPathAttributeType d hh (.num 2) .as4PathC)
      .aggregator4Property .aggregator4C
  | .addPath protos => addPathRegister d protos hh
  | _ => hh

/-- `MessageDecoder.for_capabilities` (`message.py` lines 1563-1593) with
an explicit base decoder: construct `cls(base_decoder)` and register the
capability-specific types on the new decoder. -/
def MessageDecoder.for_capabilities (capabilities : List Capability)
    (base : MessageDecoder) (h : DecoderHeap) :
    MessageDecoder × DecoderHeap :=
  let dh := MessageDecoder.init base h
  (dh.1, capabilities.foldl (forCapabilitiesStep dh.1) dh.2)

/-! ## Concrete inputs used by the claim theorems -/

/-- `10.0.0.0/8`. -/
def net8 : IPNet := ⟨167772160, 8⟩

/-- `10.1.0.0/16`. -/
def net16 : IPNet := ⟨167837696, 16⟩

/-- `10.1.1.0/24`. -/
def net24 : IPNet := ⟨167837952, 24⟩

/-- `10.1.1.1/32` (the coercion of the address `10.1.1.1`). -/
def key111 : IPNet := ⟨167837953, 32⟩

/-- `10.1.2.1/32`. -/
def key121 : IPNet := ⟨167838209, 32⟩

/-- `10.2.0.1/32`. -/
def key201 : IPNet := ⟨167903233, 32⟩

/-- The spec's trie scenario: `add(10.0.0.0/8, "a")`,
`add(10.1.0.0/16, "b")`, `add(10.1.1.0/24, "c")` on a `RoutingTable4`. -/
def scenarioTable : RoutingTable String :=
  ((RoutingTable4.empty.setItem net8 "a").setItem net16 "b").setItem net24 "c"

/-- A one-entry `RoutingTable4` holding `10.0.0.0/8 → "a"`. -/
def singleTable : RoutingTable String := RoutingTable4.empty.setItem net8 "a"

/-- The tree left by `remove(10.0.0.0/8)` on `singleTable`: the data node
is replaced by a childless plain node that stays linked under the root. -/
def singleTableRemoved : RoutingTable String :=
  ⟨routingTable4Splits, .mk ⟨0, 0⟩ (.cons (.mk net8 .nil none) .nil) none⟩

/-- The NLRI object for `10.0.0.0/8`. -/
def nlri8 : IPNLRI := ⟨net8⟩

/-- A route for `10.0.0.0/8`, IPv4 unicast, as stored in the RIBs. -/
def routeB : Route := ⟨1, 1, nlri8, [], some (65001, 3232235521)⟩

/-- An empty routing table under a RIB (`RoutingTable()`, root coerces to
the default family). -/
def ribEmptyRT {β : Type} : RoutingTable β := RoutingTable.emptyDefault

/-- A Loc-RIB with protocol (1, 1) registered and the set `[routeB]`
stored at `10.0.0.0/8`. -/
def locRib0 : RIB (List Route) :=
  ⟨[(1, 1)],
    [((1, 1), ⟨routingTableSplits,
      .mk ⟨0, 0⟩ (.cons (.mk net8 .nil (some [routeB])) .nil) none⟩)]⟩

/-- An Adj-RIB-In with protocol (1, 1) registered and `routeB` stored at
`10.0.0.0/8`. -/
def adjRibIn0 : RIB Route :=
  ⟨[(1, 1)],
    [((1, 1), ⟨routingTableSplits,
      .mk ⟨0, 0⟩ (.cons (.mk net8 .nil (some routeB)) .nil) none⟩)]⟩

/-- A fresh Loc-RIB with protocol (1, 1) registered and no stored entry. -/
def locRibFresh : RIB (List Route) := ⟨[(1, 1)], [((1, 1), ribEmptyRT)]⟩

/-- A routing session whose both sides advertise IPv4 unicast, with
`peer_id = (65001, 3232235521)`, an accept-all import filter, and the
RIBs above. -/
def session0 : RoutingSession :=
  ⟨[.multiprotocol 1 1], [.multiprotocol 1 1], some (65001, 3232235521),
    fun _ => true, adjRibIn0, locRib0⟩

/-- An UPDATE withdrawing `10.0.0.0/8` (top-level withdrawn NLRI, no path
attributes, no announcements). -/
def withdrawUpdate : UpdateMessage := ⟨[nlri8], [], []⟩

/-- An UPDATE carrying one MP_UNREACH attribute (AFI 2, SAFI 1, one NLRI)
and no MP_REACH attribute. -/
def mpUnreachOnlyUpdate : UpdateMessage :=
  ⟨[], [.mpUnreach 2 1 [⟨⟨0, 32⟩⟩]], []⟩

/-- A session whose local side advertises IPv4 unicast while the peer
advertises no capability at all. -/
def sessionLocalOnly : Session := ⟨[.multiprotocol 1 1], []⟩

/-- A 256-octet payload attribute with a clear flags octet. -/
def bigAttribute : PathAttribute := ⟨0, 1, List.replicate 256 0⟩

/-- A transitive attribute with a 3-octet payload (EXTENDED_LENGTH clear). -/
def smallAttribute : PathAttribute := ⟨64, 1, [1, 2, 3]⟩

/-- An 18-octet buffer whose declared length field (offsets 16-17) is 17. -/
def shortBuffer : List Nat := List.replicate 16 255 ++ [0, 17]

/-- A singleton-dict heap: one registry dict of each kind. -/
def heap0 : DecoderHeap :=
  ⟨[[(2, .updateMessageC)]], [[(.num 2, .asPathC)]], [[(65, .fourOctetASNCapC)]],
    [[(2, .capabilityParameterC)]], [[((1, 1), .ipNLRIC)]]⟩

/-- The decoder whose registries are the dicts at index 0 of `heap0`. -/
def baseDecoder : MessageDecoder := ⟨0, 0, 0, 0, 0⟩

/-- Capabilities negotiating both four-octet ASN and ADD-PATH for IPv4
unicast. -/
def negotiatedCaps : List Capability :=
  [.fourOctetASN 65537, .addPath [(1, 1, 3)]]

/-- Whether an `Except` computation succeeded. -/
def exceptOk {ε α : Type} : Except ε α → Bool
  | .ok _ => true
  | .error _ => false

/-- An UPDATE carrying one MP_REACH attribute (AFI 1, SAFI 1) and one
MP_UNREACH attribute (AFI 2, SAFI 1), each with one NLRI. -/
def mixedMpUpdate : UpdateMessage :=
  ⟨[], [.mpReach 1 1 [] [⟨⟨0, 32⟩⟩], .mpUnreach 2 1 [⟨⟨1, 32⟩⟩]], []⟩

/-! ## Theorems -/

/-- The broken setter: requesting the EXTENDED_LENGTH bit to be set leaves
the flags unchanged (the mask `16 * (not True)` is zero). -/
theorem setExtendedLength_true (f : Nat) : setExtendedLength f true = f := by
  simp [setExtendedLength]

/-- `byteAppend` on a byte value. -/
theorem byteAppend_ok (b : List Nat) (x : Nat) (h : x < 256) :
    byteAppend b x = .ok (b ++ [x]) := by
  simp [byteAppend, h]

/-- `intToBytes` over one octet. -/
theorem intToBytes_one (n : Nat) (h : n ≤ 255) : intToBytes 1 n = .ok [n] := by
  have h1 : n < 256 ^ 1 := by omega
  have h2 : n % 256 = n := Nat.mod_eq_of_lt (by omega)
  simp [intToBytes, intToBytesGo, h1, h2]
  omega

/-- `intToBytes` over two octets. -/
theorem intToBytes_two (n : Nat) (h : n ≤ 65535) :
    intToBytes 2 n = .ok [n / 256, n % 256] := by
  have h1 : n < 256 ^ 2 := by omega
  have h2 : n / 256 < 256 := by omega
  simp [intToBytes, intToBytesGo, h1, Nat.mod_eq_of_lt h2]
  omega

/-- `intFromBytes` of a two-octet list. -/
theorem intFromBytes_pair (hi lo : Nat) :
    intFromBytes [hi, lo] = hi * 256 + lo := by
  simp [intFromBytes, List.foldl]

/-- C1: evaluating the trie scenario of the claim on the embedded code.
Before the removal the three lookups return the claimed pairs, and after
`remove(10.1.0.0/16)` the lookup of `10.1.1.1` still returns
`(10.1.1.0/24, "c")`; but the lookup of `10.1.2.1` raises `KeyError`
instead of returning `(10.0.0.0/8, "a")`: the descent ends at the plain
node left at `10.1.0.0/16` and `RoutingTable.lookup` only inspects that
last node instead of the deepest data node of the chain. -/
theorem c1_lookup_returns_last_chain_node :
    scenarioTable.lookup key111 false = .ok (net24, "c") ∧
    scenarioTable.lookup key121 false = .ok (net16, "b") ∧
    scenarioTable.lookup key201 false = .ok (net8, "a") ∧
    (scenarioTable.remove net16).map (fun t => t.lookup key111 false) =
      .ok (.ok (net24, "c")) ∧
    (scenarioTable.remove net16).map (fun t => t.lookup key121 false) =
      .ok (.error .keyError) := by
  refine ⟨rfl, rfl, rfl, rfl, rfl⟩

/-- C2: `RIB.add_set` on a registered protocol raises `AttributeError` at
the very first insertion: storing the fresh set executes
`RoutingTable.__setitem__` with the `IPNLRI` key, whose family coercion
calls a method the NLRI object does not have.  No set union of competing
routes ever takes place. -/
theorem c2_add_set_raises :
    RIB.add_set locRibFresh routeB = .error .attributeError := rfl

/-- C3: consuming an UPDATE that withdraws `10.0.0.0/8` over a session
whose `common_protocols` contains (1, 1) leaves the whole session state
unchanged, although the withdrawn route is stored both in the Adj-RIB-In
and in the Loc-RIB set: `RIB.__contains__` compares the NLRI against the
`(afi, safi)` keys of `_rts` and always returns false, so `RIB.remove` and
`RIB.remove_set` return without deleting anything, and no empty-set entry
cleanup exists in the code at all. -/
theorem c3_withdraw_changes_nothing :
    RoutingSession.on_update session0 withdrawUpdate = .ok session0 ∧
    (alistGet session0.adj_rib_in.rts (1, 1)).map
      (fun rt => rt.lookup net8 true) = some (.ok (net8, routeB)) ∧
    (alistGet session0.loc_rib.rts (1, 1)).map
      (fun rt => rt.lookup net8 true) = some (.ok (net8, [routeB])) := by
  refine ⟨rfl, rfl, rfl⟩

set_option maxRecDepth 8000 in
/-- C4: encoding a `PathAttribute` with a 256-octet payload and a clear
flags octet raises `OverflowError`: the `extended_length` setter cannot set
the bit (second conjunct), so `to_bytes` still emits a 1-octet length field
and `int.to_bytes(1)` overflows.  Decoding, in contrast, does honor an
EXTENDED_LENGTH bit that is present, reading a 2-octet length (third
conjunct). -/
theorem c4_extended_length_encode_fails :
    PathAttribute.to_bytes bigAttribute = .error .overflowError ∧
    setExtendedLength 0 true = 0 ∧
    PathAttribute.from_bytes ([16, 1, 1, 44] ++ List.replicate 300 7) =
      .ok ⟨16, 1, List.replicate 300 7⟩ := by
  refine ⟨rfl, rfl, ?_⟩
  have h : intFromBytes [1, 44] = 300 := rfl
  simp [PathAttribute.from_bytes, pyIndex, extendedLengthFlag, FLAG_EXTENDED_LENGTH]
  rfl

/-- C5: `Route.from_update` on an UPDATE that carries an MP_UNREACH
attribute but no MP_REACH attribute raises `NameError`: the WITHDRAW loop
reads `mpreach.afi`/`mpreach.safi`, the loop variable of the preceding
MP_REACH loop, which is unbound.  When an MP_REACH attribute is present,
the WITHDRAW routes carry that attribute's AFI/SAFI instead of the
MP_UNREACH attribute's (second conjunct: the MP_UNREACH has AFI 2 but the
WITHDRAW is yielded with AFI 1 from the MP_REACH). -/
theorem c5_from_update_mp_unreach :
    Route.from_update mpUnreachOnlyUpdate = .error .nameError ∧
    (Route.from_update mixedMpUpdate).map
      (fun l => l.map (fun ar => (ar.1, ar.2.afi, ar.2.safi))) =
      .ok [(.announce, 1, 1), (.withdraw, 1, 1)] := by
  refine ⟨rfl, rfl⟩

/-- C6: with the local side advertising IPv4 unicast and the peer
advertising no capability, `common_protocols` still contains (1, 1): the
`peer_protocols` property iterates over `self.local_capabilities`, so the
peer's advertised set (empty here, second conjunct) is never consulted. -/
theorem c6_common_protocols_ignores_peer :
    Session.common_protocols sessionLocalOnly = [(1, 1)] ∧
    multiprotocolTuples sessionLocalOnly.peer_capabilities = [] := by
  refine ⟨rfl, rfl⟩

/-- C8 counterexample: an 18-octet buffer whose declared length is 17 makes
`is_full_message` return true although the declared length is below 19, so
the claimed equivalence fails at this input. -/
theorem c8_is_full_message_counterexample :
    18 ≤ shortBuffer.length ∧
    is_full_message shortBuffer = true ∧
    ¬(shortBuffer.length ≥ message_length shortBuffer ∧
      message_length shortBuffer ≥ 19) := by
  refine ⟨by decide, rfl, by decide⟩

/-- C8 (amended): for every buffer of at least 18 octets, `is_full_message`
returns true exactly when the buffer length is at least the declared length
at offsets 16-17; the code does not check the declared length against the
19-octet minimum. -/
theorem c8_is_full_message_amended (b : List Nat) (h : 18 ≤ b.length) :
    is_full_message b = true ↔ message_length b ≤ b.length := by
  simp [is_full_message, h]

/-- C8 witness: the amended equivalence applied to the concrete 18-octet
buffer. -/
theorem c8_is_full_message_witness :
    18 ≤ shortBuffer.length ∧
    (is_full_message shortBuffer = true ↔
      message_length shortBuffer ≤ shortBuffer.length) :=
  ⟨by decide, c8_is_full_message_amended shortBuffer (by decide)⟩

/-- `exceptOk` ignores `Except.map`. -/
theorem exceptOk_map {ε α β : Type} (f : α → β) (e : Except ε α) :
    exceptOk (Except.map f e) = exceptOk e := by
  cases e <;> simp [Except.map, exceptOk]

mutual
/-- A successful `removeNet` keeps the node's network, and the
`lookup_chain` descent in the rewritten subtree ends at a plain node with
the removed node's network and children. -/
theorem Node.removeNet_ok {α : Type} : ∀ (c : Node α) (net : IPNet)
    (c' : Node α), Node.removeNet c net = .ok c' →
    c'.net = c.net ∧ (Node.lookup c' net).net = net ∧
    (Node.lookup c' net).data = none ∧
    (Node.lookup c' net).children = (Node.lookup c net).children
  | .mk cnet cs d, net, c', h => by
    by_cases hc : cnet = net
    · subst hc
      cases d with
      | none => simp [Node.removeNet] at h
      | some v =>
        simp [Node.removeNet] at h
        subst h
        simp [Node.lookup, Node.net, Node.data, Node.children]
    · simp only [Node.removeNet, if_neg hc] at h
      cases hrm : Children.removeStep net cs with
      | error e => rw [hrm] at h; simp [Except.map] at h
      | ok cs2 =>
        rw [hrm] at h
        simp only [Except.map, Except.ok.injEq] at h
        subst h
        have IH := Children.removeStep_ok cs net cs2 hrm
          (Node.mk cnet cs d) (Node.mk cnet cs2 d)
        refine ⟨by simp [Node.net], ?_, ?_, ?_⟩
        · simpa [Node.lookup, if_neg hc] using IH.1
        · simpa [Node.lookup, if_neg hc] using IH.2.1
        · simpa [Node.lookup, if_neg hc] using IH.2.2

/-- Companion of `Node.removeNet_ok` on children collections: the
fallbacks are irrelevant because a successful removal means the descent
finds a child to enter. -/
theorem Children.removeStep_ok {α : Type} : ∀ (cs : Children α)
    (net : IPNet) (cs' : Children α),
    Children.removeStep net cs = .ok cs' →
    ∀ (fb fb' : Node α),
    (Children.lookupStep fb' net cs').net = net ∧
    (Children.lookupStep fb' net cs').data = none ∧
    (Children.lookupStep fb' net cs').children =
      (Children.lookupStep fb net cs).children
  | .nil, net, cs', h => by simp [Children.removeStep] at h
  | .cons c rest, net, cs', h => by
    by_cases hcc : netContains c.net net = true
    · simp only [Children.removeStep, if_pos hcc] at h
      cases hrm : Node.removeNet c net with
      | error e => rw [hrm] at h; simp [Except.map] at h
      | ok c2 =>
        rw [hrm] at h
        simp only [Except.map, Except.ok.injEq] at h
        subst h
        have IH := Node.removeNet_ok c net c2 hrm
        intro fb fb'
        have hnet : c2.net = c.net := IH.1
        simp only [Children.lookupStep, hnet, if_pos hcc]
        exact ⟨IH.2.1, IH.2.2.1, IH.2.2.2⟩
    · simp only [Children.removeStep, if_neg hcc] at h
      cases hrm : Children.removeStep net rest with
      | error e => rw [hrm] at h; simp [Except.map] at h
      | ok rest2 =>
        rw [hrm] at h
        simp only [Except.map, Except.ok.injEq] at h
        subst h
        have IH := Children.removeStep_ok rest net rest2 hrm
        intro fb fb'
        simp only [Children.lookupStep, if_neg hcc]
        exact IH fb fb'
end

mutual
/-- `removeNet` succeeds exactly when the `lookup_chain` descent ends at a
data node whose network equals the key. -/
theorem Node.removeNet_isOk {α : Type} : ∀ (c : Node α) (net : IPNet),
    exceptOk (Node.removeNet c net) =
      (decide ((Node.lookup c net).net = net) &&
        (Node.lookup c net).data.isSome)
  | .mk cnet cs d, net => by
    by_cases hc : cnet = net
    · subst hc
      cases d <;>
        simp [Node.removeNet, Node.lookup, Node.net, Node.data, exceptOk]
    · simp only [Node.removeNet, Node.lookup, if_neg hc, exceptOk_map]
      exact Children.removeStep_isOk cs net (.mk cnet cs d)
        (by simpa [Node.net] using hc)

/-- Companion of `Node.removeNet_isOk` on children collections, for a
fallback whose network differs from the key. -/
theorem Children.removeStep_isOk {α : Type} : ∀ (cs : Children α)
    (net : IPNet) (fb : Node α), fb.net ≠ net →
    exceptOk (Children.removeStep net cs) =
      (decide ((Children.lookupStep fb net cs).net = net) &&
        (Children.lookupStep fb net cs).data.isSome)
  | .nil, net, fb, hfb => by
    simp [Children.removeStep, Children.lookupStep, exceptOk, hfb]
  | .cons c rest, net, fb, hfb => by
    by_cases hcc : netContains c.net net = true
    · simp only [Children.removeStep, Children.lookupStep, if_pos hcc,
        exceptOk_map]
      exact Node.removeNet_isOk c net
    · simp only [Children.removeStep, Children.lookupStep, if_neg hcc,
        exceptOk_map]
      exact Children.removeStep_isOk rest net fb hfb
end

/-- Exact lookup succeeds exactly when the descent ends at a data node
with the key's network. -/
theorem lookup_exact_isOk {α : Type} (t : RoutingTable α) (net : IPNet) :
    exceptOk (t.lookup net true) =
      (decide ((t.root.lookup net).net = net) &&
        (t.root.lookup net).data.isSome) := by
  unfold RoutingTable.lookup
  cases hd : (t.root.lookup net).data with
  | none => simp [hd, exceptOk]
  | some v =>
    by_cases hn : (t.root.lookup net).net = net
    · simp [hd, hn, exceptOk]
    · simp [hd, hn, exceptOk]

/-- C9 (amended): `RoutingTable.remove` succeeds exactly when the exact
lookup of the network succeeds (deleting a network with no data node
signals `KeyError` and, the embedding being pure, produces no changed
table); and a successful removal always replaces the target data node by a
plain (non-data) node with the same network and the same children — also
when the node has no children, in which case the childless plain node stays
in the tree instead of being unlinked — after which the exact lookup of the
network signals `KeyError`.  The root case is included: removing the root's
network leaves a plain root. -/
theorem c9_remove_replaces_data_node {α : Type} (t : RoutingTable α)
    (net : IPNet) :
    (exceptOk (t.remove net) = exceptOk (t.lookup net true)) ∧
    ∀ t', t.remove net = .ok t' →
      (t'.root.lookup net).net = net ∧
      (t'.root.lookup net).data = none ∧
      (t'.root.lookup net).children = (t.root.lookup net).children ∧
      t'.lookup net true = .error .keyError := by
  constructor
  · rw [RoutingTable.remove, exceptOk_map, Node.removeNet_isOk,
      lookup_exact_isOk]
  · intro t' h
    rw [RoutingTable.remove] at h
    cases hrm : t.root.removeNet net with
    | error e => rw [hrm] at h; simp [Except.map] at h
    | ok r =>
      rw [hrm] at h
      simp only [Except.map, Except.ok.injEq] at h
      subst h
      have IH := Node.removeNet_ok t.root net r hrm
      refine ⟨IH.2.1, IH.2.2.1, IH.2.2.2, ?_⟩
      simp [RoutingTable.lookup, IH.2.2.1]

/-- C9 counterexample: removing `10.0.0.0/8` from a table where its data
node has no children does not unlink it — the resulting tree still holds a
(plain) node with network `10.0.0.0/8` under the root. -/
theorem c9_remove_counterexample :
    singleTable.remove net8 = .ok singleTableRemoved ∧
    (singleTable.root.lookup net8).children = .nil ∧
    singleTableRemoved.root.hasNet net8 = true := by
  refine ⟨rfl, rfl, rfl⟩

/-- C9 witness: the amended theorem applied to the one-entry table at
`10.0.0.0/8`. -/
theorem c9_remove_witness :
    (exceptOk (singleTable.remove net8) =
      exceptOk (singleTable.lookup net8 true)) ∧
    ((singleTableRemoved.root.lookup net8).net = net8 ∧
      (singleTableRemoved.root.lookup net8).data = none ∧
      (singleTableRemoved.root.lookup net8).children =
        (singleTable.root.lookup net8).children ∧
      singleTableRemoved.lookup net8 true = .error .keyError) :=
  ⟨(c9_remove_replaces_data_node singleTable net8).1,
    (c9_remove_replaces_data_node singleTable net8).2 singleTableRemoved rfl⟩

/-- C7: decoding the encoding of a `PathAttribute` whose payload length is
representable in its length field (at most 255 octets with the
EXTENDED_LENGTH flag clear, at most 65535 with it set) returns an attribute
with the same flags, type octet and payload bytes.  The flags and type
octet must be byte values for `bytearray.append` to accept them. -/
theorem c7_path_attribute_roundtrip (a : PathAttribute) (hf : a.flags < 256)
    (ht : a.type_ < 256)
    (hlen : a.payload.length ≤
      if extendedLengthFlag a.flags then 65535 else 255) :
    PathAttribute.to_bytes a >>= PathAttribute.from_bytes = .ok a := by
  obtain ⟨f, t, p⟩ := a
  simp only [PathAttribute.to_bytes, setExtendedLength_true]
  by_cases hx : extendedLengthFlag f = true
  · rw [if_pos hx] at hlen
    have hdm : p.length / 256 * 256 + p.length % 256 = p.length := by omega
    simp [byteAppend_ok [] f hf, byteAppend_ok [f] t ht, hx,
      intToBytes_two p.length hlen, PathAttribute.from_bytes, pyIndex,
      intFromBytes, hdm, List.take_length, Bind.bind, Except.bind]
  · rw [if_neg hx] at hlen
    simp [byteAppend_ok [] f hf, byteAppend_ok [f] t ht, hx,
      intToBytes_one p.length hlen, PathAttribute.from_bytes, pyIndex,
      List.take_length, Bind.bind, Except.bind]

/-- C7 witness: the round-trip applied to a transitive attribute with a
3-octet payload. -/
theorem c7_path_attribute_roundtrip_witness :
    smallAttribute.flags < 256 ∧ smallAttribute.type_ < 256 ∧
    PathAttribute.to_bytes smallAttribute >>= PathAttribute.from_bytes =
      .ok smallAttribute :=
  ⟨by decide, by decide,
    c7_path_attribute_roundtrip smallAttribute (by decide) (by decide)
      (by decide)⟩

/-- Registering a path attribute type touches only the registering
decoder's `path_attribute_types` dict. -/
theorem registerPA_frame (d : MessageDecoder) (hh : DecoderHeap) (k : PaKey)
    (c : PyClass) :
    (registerPathAttributeType d hh k c).msgs = hh.msgs ∧
    (registerPathAttributeType d hh k c).caps = hh.caps ∧
    (registerPathAttributeType d hh k c).pars = hh.pars ∧
    (registerPathAttributeType d hh k c).nlris = hh.nlris ∧
    ∀ j, j ≠ d.path_attribute_types →
      (registerPathAttributeType d hh k c).pas.get? j = hh.pas.get? j := by
  refine ⟨rfl, rfl, rfl, rfl, fun j hj => ?_⟩
  exact List.get?_set_ne _ _ (Ne.symm hj)

/-- Installing an NLRI type touches only the registering decoder's
`nlri_types` dict. -/
theorem setNLRI_frame (d : MessageDecoder) (hh : DecoderHeap)
    (k : Nat × Nat) (c : PyClass) :
    (setNLRIType d hh k c).msgs = hh.msgs ∧
    (setNLRIType d hh k c).pas = hh.pas ∧
    (setNLRIType d hh k c).caps = hh.caps ∧
    (setNLRIType d hh k c).pars = hh.pars ∧
    ∀ j, j ≠ d.nlri_types →
      (setNLRIType d hh k c).nlris.get? j = hh.nlris.get? j := by
  refine ⟨rfl, rfl, rfl, rfl, fun j hj => ?_⟩
  exact List.get?_set_ne _ _ (Ne.symm hj)

/-- The ADD-PATH registration loop touches only the registering decoder's
`nlri_types` dict. -/
theorem addPathRegister_frame (d : MessageDecoder)
    (protos : List (Nat × Nat × Nat)) : ∀ hh : DecoderHeap,
    (addPathRegister d protos hh).msgs = hh.msgs ∧
    (addPathRegister d protos hh).pas = hh.pas ∧
    (addPathRegister d protos hh).caps = hh.caps ∧
    (addPathRegister d protos hh).pars = hh.pars ∧
    ∀ j, j ≠ d.nlri_types →
      (addPathRegister d protos hh).nlris.get? j = hh.nlris.get? j := by
  induction protos with
  | nil => exact fun hh => ⟨rfl, rfl, rfl, rfl, fun j hj => rfl⟩
  | cons p rest ih =>
    intro hh
    have hstep : addPathRegister d (p :: rest) hh =
        addPathRegister d rest
          (if (decide ((p.1, p.2.1) ∈ ipnlriProtos)) && (p.2.2 &&& 1 != 0)
           then setNLRIType d hh (p.1, p.2.1) .addPathIPNLRIC else hh) := rfl
    rw [hstep]
    have S : ∀ hh' : DecoderHeap,
        hh' = (if (decide ((p.1, p.2.1) ∈ ipnlriProtos)) &&
            (p.2.2 &&& 1 != 0)
          then setNLRIType d hh (p.1, p.2.1) .addPathIPNLRIC else hh) →
        hh'.msgs = hh.msgs ∧ hh'.pas = hh.pas ∧ hh'.caps = hh.caps ∧
        hh'.pars = hh.pars ∧ ∀ j, j ≠ d.nlri_types →
          hh'.nlris.get? j = hh.nlris.get? j := by
      intro hh' hdef
      rw [hdef]
      split
      · exact ⟨rfl, rfl, rfl, rfl,
          fun j hj => List.get?_set_ne _ _ (Ne.symm hj)⟩
      · exact ⟨rfl, rfl, rfl, rfl, fun j hj => rfl⟩
    have S' := S _ rfl
    have I := ih ((if (decide ((p.1, p.2.1) ∈ ipnlriProtos)) &&
        (p.2.2 &&& 1 != 0)
      then setNLRIType d hh (p.1, p.2.1) .addPathIPNLRIC else hh))
    refine ⟨I.1.trans S'.1, I.2.1.trans S'.2.1, I.2.2.1.trans S'.2.2.1,
      I.2.2.2.1.trans S'.2.2.2.1, fun j hj => ?_⟩
    exact (I.2.2.2.2 j hj).trans (S'.2.2.2.2 j hj)

/-- The capability loop of `for_capabilities` touches only the registering
decoder's `path_attribute_types` and `nlri_types` dicts. -/
theorem forCapSteps_frame (d : MessageDecoder) (caps : List Capability) :
    ∀ hh : DecoderHeap,
    (caps.foldl (forCapabilitiesStep d) hh).msgs = hh.msgs ∧
    (caps.foldl (forCapabilitiesStep d) hh).caps = hh.caps ∧
    (caps.foldl (forCapabilitiesStep d) hh).pars = hh.pars ∧
    (∀ j, j ≠ d.path_attribute_types →
      (caps.foldl (forCapabilitiesStep d) hh).pas.get? j = hh.pas.get? j) ∧
    (∀ j, j ≠ d.nlri_types →
      (caps.foldl (forCapabilitiesStep d) hh).nlris.get? j =
        hh.nlris.get? j) := by
  induction caps with
  | nil => exact fun hh => ⟨rfl, rfl, rfl, fun j hj => rfl, fun j hj => rfl⟩
  | cons cap rest ih =>
    intro hh
    have hstep :
        (cap :: rest).foldl (forCapabilitiesStep d) hh =
          rest.foldl (forCapabilitiesStep d) (forCapabilitiesStep d hh cap) :=
      rfl
    rw [hstep]
    have I := ih (forCapabilitiesStep d hh cap)
    have S : (forCapabilitiesStep d hh cap).msgs = hh.msgs ∧
        (forCapabilitiesStep d hh cap).caps = hh.caps ∧
        (forCapabilitiesStep d hh cap).pars = hh.pars ∧
        (∀ j, j ≠ d.path_attribute_types →
          (forCapabilitiesStep d hh cap).pas.get? j = hh.pas.get? j) ∧
        (∀ j, j ≠ d.nlri_types →
          (forCapabilitiesStep d hh cap).nlris.get? j = hh.nlris.get? j) := by
      cases cap with
      | fourOctetASN asn =>
        have R1 := registerPA_frame d hh (.num 2) .as4PathC
        have R2 := registerPA_frame d
          (registerPathAttributeType d hh (.num 2) .as4PathC)
          .aggregator4Property .aggregator4C
        refine ⟨?_, ?_, ?_, fun j hj => ?_, fun j hj => ?_⟩
        · show (registerPathAttributeType d
            (registerPathAttributeType d hh (.num 2) .as4PathC)
            .aggregator4Property .aggregator4C).msgs = hh.msgs
          rw [R2.1, R1.1]
        · show (registerPathAttributeType d
            (registerPathAttributeType d hh (.num 2) .as4PathC)
            .aggregator4Property .aggregator4C).caps = hh.caps
          rw [R2.2.1, R1.2.1]
        · show (registerPathAttributeType d
            (registerPathAttributeType d hh (.num 2) .as4PathC)
            .aggregator4Property .aggregator4C).pars = hh.pars
          rw [R2.2.2.1, R1.2.2.1]
        · show (registerPathAttributeType d
            (registerPathAttributeType d hh (.num 2) .as4PathC)
            .aggregator4Property .aggregator4C).pas.get? j = hh.pas.get? j
          rw [R2.2.2.2.2 j hj, R1.2.2.2.2 j hj]
        · show (registerPathAttributeType d
            (registerPathAttributeType d hh (.num 2) .as4PathC)
            .aggregator4Property .aggregator4C).nlris.get? j =
              hh.nlris.get? j
          rw [R2.2.2.2.1, R1.2.2.2.1]
      | addPath protos =>
        have A := addPathRegister_frame d protos hh
        refine ⟨A.1, A.2.2.1, A.2.2.2.1, fun j hj => ?_, fun j hj => ?_⟩
        · show (addPathRegister d protos hh).pas.get? j = hh.pas.get? j
          rw [A.2.1]
        · exact A.2.2.2.2 j hj
      | multiprotocol afi safi =>
        exact ⟨rfl, rfl, rfl, fun j hj => rfl, fun j hj => rfl⟩
      | routeRefreshCap =>
        exact ⟨rfl, rfl, rfl, fun j hj => rfl, fun j hj => rfl⟩
      | other ty pl =>
        exact ⟨rfl, rfl, rfl, fun j hj => rfl, fun j hj => rfl⟩
    refine ⟨by rw [I.1, S.1], by rw [I.2.1, S.2.1], by rw [I.2.2.1, S.2.2.1],
      fun j hj => ?_, fun j hj => ?_⟩
    · rw [I.2.2.2.1 j hj, S.2.2.2.1 j hj]
    · rw [I.2.2.2.2 j hj, S.2.2.2.2 j hj]

/-- C10: `MessageDecoder.for_capabilities` returns a decoder with freshly
allocated registries (its five references differ from the base decoder's)
and leaves every registry of the base decoder unchanged: the constructor
copies the template's entries into fresh dicts, and every registration of
AS4Path/Aggregator4 or ADD-PATH NLRI decoding writes only through the new
decoder's references. -/
theorem c10_for_capabilities_frame (caps : List Capability)
    (base : MessageDecoder) (h : DecoderHeap)
    (h1 : base.message_types < h.msgs.length)
    (h2 : base.path_attribute_types < h.pas.length)
    (h3 : base.capability_types < h.caps.length)
    (h4 : base.parameter_types < h.pars.length)
    (h5 : base.nlri_types < h.nlris.length) :
    ((MessageDecoder.for_capabilities caps base h).2.msgs.get?
        base.message_types = h.msgs.get? base.message_types) ∧
    ((MessageDecoder.for_capabilities caps base h).2.pas.get?
        base.path_attribute_types = h.pas.get? base.path_attribute_types) ∧
    ((MessageDecoder.for_capabilities caps base h).2.caps.get?
        base.capability_types = h.caps.get? base.capability_types) ∧
    ((MessageDecoder.for_capabilities caps base h).2.pars.get?
        base.parameter_types = h.pars.get? base.parameter_types) ∧
    ((MessageDecoder.for_capabilities caps base h).2.nlris.get?
        base.nlri_types = h.nlris.get? base.nlri_types) ∧
    ((MessageDecoder.for_capabilities caps base h).1.message_types ≠
      base.message_types) ∧
    ((MessageDecoder.for_capabilities caps base h).1.path_attribute_types ≠
      base.path_attribute_types) ∧
    ((MessageDecoder.for_capabilities caps base h).1.capability_types ≠
      base.capability_types) ∧
    ((MessageDecoder.for_capabilities caps base h).1.parameter_types ≠
      base.parameter_types) ∧
    ((MessageDecoder.for_capabilities caps base h).1.nlri_types ≠
      base.nlri_types) := by
  have hd : (MessageDecoder.for_capabilities caps base h).1 =
      (⟨h.msgs.length, h.pas.length, h.caps.length, h.pars.length,
        h.nlris.length⟩ : MessageDecoder) := rfl
  have hheap : (MessageDecoder.for_capabilities caps base h).2 =
      caps.foldl
        (forCapabilitiesStep (MessageDecoder.for_capabilities caps base h).1)
        (MessageDecoder.init base h).2 := rfl
  have F := forCapSteps_frame (MessageDecoder.for_capabilities caps base h).1
    caps (MessageDecoder.init base h).2
  refine ⟨?_, ?_, ?_, ?_, ?_, ?_, ?_, ?_, ?_, ?_⟩
  · rw [hheap, F.1]
    exact List.get?_append h1
  · rw [hheap, F.2.2.2.1 base.path_attribute_types (by rw [hd]; dsimp only; omega)]
    exact List.get?_append h2
  · rw [hheap, F.2.1]
    exact List.get?_append h3
  · rw [hheap, F.2.2.1]
    exact List.get?_append h4
  · rw [hheap, F.2.2.2.2 base.nlri_types (by rw [hd]; dsimp only; omega)]
    exact List.get?_append h5
  · rw [hd]; dsimp only; omega
  · rw [hd]; dsimp only; omega
  · rw [hd]; dsimp only; omega
  · rw [hd]; dsimp only; omega
  · rw [hd]; dsimp only; omega

/-- C10 witness: negotiating four-octet ASN and ADD-PATH over the
singleton-registry heap leaves the base decoder's path-attribute and NLRI
registries unchanged. -/
theorem c10_for_capabilities_frame_witness :
    ((MessageDecoder.for_capabilities negotiatedCaps baseDecoder
        heap0).2.pas.get? baseDecoder.path_attribute_types =
      heap0.pas.get? baseDecoder.path_attribute_types) ∧
    ((MessageDecoder.for_capabilities negotiatedCaps baseDecoder
        heap0).2.nlris.get? baseDecoder.nlri_types =
      heap0.nlris.get? baseDecoder.nlri_types) :=
  ⟨(c10_for_capabilities_frame negotiatedCaps baseDecoder heap0 (by decide)
      (by decide) (by decide) (by decide) (by decide)).2.1,
    (c10_for_capabilities_frame negotiatedCaps baseDecoder heap0 (by decide)
      (by decide) (by decide) (by decide) (by decide)).2.2.2.2.1⟩
